import Mathlib

/-!
# Verification of the port-acquisition / fallback HTTP server

A shallow embedding of `src/server.js` (an Express application with a
bare-`http` fallback path) together with theorems settling the frozen
claims about its specification.

The embedding has three parts:

* the **Request Responder** (routes `GET /` and `GET /good-evening`
  plus the 404 behaviour), modelled separately for the Primary
  (Express) strategy and the Fallback (bare HTTP) strategy;
* the **Listener Acquisition Controller** (`startServer`,
  `startHttpFallback`, `startHttpServerWithFallback`), modelled as
  functions from a port environment to a trace of events (bind
  attempts, backoff waits, console lines) and a final outcome;
* the **event-listener accumulation** in the fallback retry path,
  modelled explicitly because the source registers a fresh `error`
  handler on the same server object on every retry.
-/

set_option autoImplicit false

namespace ServerJs

/-- `DEFAULT_PORT` from `src/server.js` line 24. -/
def DEFAULT_PORT : Nat := 3000

/-- `MAX_PORT` from `src/server.js` line 25. -/
def MAX_PORT : Nat := 3010

/-- `RETRY_DELAY` (milliseconds) from `src/server.js` line 26. -/
def RETRY_DELAY : Nat := 1000

/-! ## Request Responder -/

/-- An incoming HTTP request, reduced to the two fields the program
inspects: `req.method` and `req.url` (the full request target,
including any query string). -/
structure Request where
  method : String
  url : String
deriving DecidableEq

/-- An outgoing HTTP response: status code, `Content-Type` header and
body. -/
structure Response where
  status : Nat
  contentType : String
  body : String
deriving DecidableEq

/-- The characters of a URL before the first `?`. -/
def pathChars : List Char → List Char
  | [] => []
  | c :: cs => if c = '?' then [] else c :: pathChars cs

/-- The path component of a request URL: everything before the first
`?`.  This is what Express 4 (via `parseurl`) matches routes against,
as opposed to the raw `req.url` compared by the fallback server. -/
def expressPath (url : String) : String :=
  String.mk (pathChars url.data)

/-- A string with every character lowercased (the effect of matching
under a case-insensitive regular expression). -/
def lowerString (s : String) : String :=
  String.mk (s.data.map Char.toLower)

/-- Express 4 default route matching for the literal route paths
registered in `src/server.js` lines 51 and 62 (`app.get` with
`caseSensitive` and `strict` at their defaults): the request path
matches `route` iff, case-insensitively, it equals `route` or `route`
followed by a single trailing slash (path-to-regexp 0.1.x compiles the
route to `^route/?$` with the `i` flag). -/
def routeMatches (route path : String) : Bool :=
  lowerString path == route || lowerString path == route ++ "/"

/-- The `Content-Type` Express sets both for `res.send` with a string
body (lines 52 and 63) and for its default 404 handler. -/
def htmlContentType : String := "text/html; charset=utf-8"

/-- The body produced by Express 4's default final handler when no
route matches: an HTML document whose `<pre>` element reads
`Cannot METHOD path` (HTML escaping of the path is elided; the inputs
used in the theorems below contain no characters affected by it).
The `README.md` in the repository shows this very output
(`Cannot GET /good-evening`) as what Express produces when routing
fails. -/
def cannotDocument (method path : String) : String :=
  "<!DOCTYPE html>\n<html lang=\"en\">\n<head>\n<meta charset=\"utf-8\">\n<title>Error</title>\n</head>\n<body>\n<pre>Cannot "
    ++ method ++ " " ++ path ++ "</pre>\n</body>\n</html>\n"

/-- The Primary (Express) strategy's responder: the two `app.get`
routes of `src/server.js` lines 51-64, matched by Express 4's default
routing against the parsed path, with Express's default 404 handling
for everything else. -/
def expressRespond (r : Request) : Response :=
  if r.method == "GET" && routeMatches "/" (expressPath r.url) then
    { status := 200, contentType := htmlContentType, body := "Hello World!" }
  else if r.method == "GET" && routeMatches "/good-evening" (expressPath r.url) then
    { status := 200, contentType := htmlContentType, body := "Good evening" }
  else
    { status := 404, contentType := htmlContentType,
      body := cannotDocument r.method (expressPath r.url) }

/-- The Fallback (bare HTTP) strategy's responder: the request handler
of `src/server.js` lines 115-131, which compares `req.url` literally
(`===`) against the two route strings. -/
def fallbackRespond (r : Request) : Response :=
  if r.method == "GET" && r.url == "/" then
    { status := 200, contentType := "text/plain", body := "Hello World!" }
  else if r.method == "GET" && r.url == "/good-evening" then
    { status := 200, contentType := "text/plain", body := "Good evening" }
  else
    { status := 404, contentType := "text/plain", body := "Not Found" }

/-- The two binding strategies of the spec: Primary (Express) and
Fallback (bare HTTP). -/
inductive Strategy
  | Primary
  | Fallback
deriving DecidableEq

/-- The responder installed under each strategy. -/
def respond : Strategy → Request → Response
  | .Primary => expressRespond
  | .Fallback => fallbackRespond

/-- Serving a sequence of requests: each request is dispatched to the
(stateless) responder independently, as both servers do. -/
def serveAll (st : Strategy) (rs : List Request) : List Response :=
  rs.map (respond st)

/-! ## Listener Acquisition Controller

The startup logic of `src/server.js` lines 73-164, modelled as a
deterministic function of a *port environment*: for each port, whether
a bind attempt on it succeeds (`ok`), fails with `EADDRINUSE`
(`inUse`), or fails with some other error (`err`).  A run produces a
trace of events — bind attempts, backoff waits (`setTimeout`), and
console lines — and a final outcome. -/

/-- The result the platform reports for a bind attempt on a given
port: success, `EADDRINUSE`, or any other error. -/
inductive BindRes
  | ok
  | inUse
  | err
deriving DecidableEq

/-- A port environment: the bind result each port would give. -/
def Env : Type := Nat → BindRes

/-- The console lines the startup logic can emit (`console.log` and
`console.error` calls in `src/server.js`), as structured values; the
literal text of each is given by `Msg.text`.  The three
endpoint-listing lines printed after a successful bind are aggregated
into the single `endpoints` message, as no claim distinguishes them. -/
inductive Msg
  | starting
  | portInUseNext (p : Nat)
  | allPortsInUse
  | attemptFallback
  | serverError
  | fallbackInit
  | expressRunning (p : Nat)
  | fallbackRunning (p : Nat)
  | tryingPort (p : Nat)
  | endpoints
  | fatal
deriving DecidableEq

/-- The literal text of each console line, from `src/server.js`. -/
def Msg.text : Msg → String
  | .starting => "Starting Express.js web server..."
  | .portInUseNext p => s!"Port {p} is in use, attempting next port..."
  | .allPortsInUse => s!"All ports from {DEFAULT_PORT} to {MAX_PORT} are in use."
  | .attemptFallback => "Attempting fallback to native HTTP server..."
  | .serverError => "Server error:"
  | .fallbackInit => "Initializing native HTTP server fallback..."
  | .expressRunning p => s!"Express.js server running on port {p}"
  | .fallbackRunning p => s!"HTTP fallback server running on port {p}"
  | .tryingPort p => s!"Port {p} is in use, trying port {p + 1}..."
  | .endpoints => "Available endpoints:"
  | .fatal => "Fatal error: Unable to start server on any available port"

/-- One observable event of a startup run. -/
inductive Event
  | attempt (s : Strategy) (p : Nat)
  | wait (ms : Nat)
  | info (m : Msg)
  | logError (m : Msg)
deriving DecidableEq

/-- How a startup run ends: bound under the Primary strategy, bound
under the Fallback strategy, or `process.exit(1)`. -/
inductive Outcome
  | boundPrimary (p : Nat)
  | boundFallback (p : Nat)
  | exitOne
deriving DecidableEq

/-- A startup run: its event trace and its outcome. -/
structure Run where
  events : List Event
  outcome : Outcome
deriving DecidableEq

/-- The backoff waits of a run, in order. -/
def Run.delays (r : Run) : List Nat :=
  r.events.filterMap fun e =>
    match e with
    | .wait d => some d
    | _ => none

/-- The bind attempts of a run, in order: which strategy tried which
port. -/
def Run.attempts (r : Run) : List (Strategy × Nat) :=
  r.events.filterMap fun e =>
    match e with
    | .attempt s p => some (s, p)
    | _ => none

/-- `startHttpServerWithFallback(server, port)` from `src/server.js`
lines 143-160: try to bind `port`; on success log and serve; on
`EADDRINUSE` with `port < MAX_PORT` log and retry at `port + 1` with
no delay; on anything else (`EADDRINUSE` at `MAX_PORT` or a
non-conflict error) log the fatal message and `process.exit(1)`.
(The per-recursion flow of each attempt; the accumulation of `error`
listeners on the shared server object is modelled separately by
`errorDispatch` below.) -/
def startHttpServerWithFallback (env : Env) (port : Nat) : Run :=
  match env port with
  | .ok =>
      ⟨[.attempt .Fallback port, .info (.fallbackRunning port), .info .endpoints],
        .boundFallback port⟩
  | .inUse =>
      if h : port < MAX_PORT then
        let rest := startHttpServerWithFallback env (port + 1)
        ⟨.attempt .Fallback port :: .info (.tryingPort port) :: rest.events, rest.outcome⟩
      else
        ⟨[.attempt .Fallback port, .logError .fatal], .exitOne⟩
  | .err =>
      ⟨[.attempt .Fallback port, .logError .fatal], .exitOne⟩
termination_by MAX_PORT - port
decreasing_by omega

/-- `startHttpFallback()` from `src/server.js` lines 112-135: log the
initialization line, create the bare HTTP server carrying
`fallbackRespond`, and start it at `DEFAULT_PORT`. -/
def startHttpFallback (env : Env) : Run :=
  let r := startHttpServerWithFallback env DEFAULT_PORT
  ⟨.info .fallbackInit :: r.events, r.outcome⟩

/-- `startServer(port, retryCount)` from `src/server.js` lines 73-105:
try to bind `port` with Express; on success log and serve; on
`EADDRINUSE`, log, and if `port >= MAX_PORT` log range exhaustion and
switch to the fallback path, else wait `RETRY_DELAY * 2 ^ retryCount`
milliseconds and retry at `port + 1` with `retryCount + 1`; on any
other bind error, log it and switch to the fallback path
immediately. -/
def startServer (env : Env) (port retryCount : Nat) : Run :=
  match env port with
  | .ok =>
      ⟨[.attempt .Primary port, .info (.expressRunning port), .info .endpoints],
        .boundPrimary port⟩
  | .inUse =>
      if h : MAX_PORT ≤ port then
        let fb := startHttpFallback env
        ⟨.attempt .Primary port :: .info (.portInUseNext port) ::
            .logError .allPortsInUse :: .info .attemptFallback :: fb.events,
          fb.outcome⟩
      else
        let rest := startServer env (port + 1) (retryCount + 1)
        ⟨.attempt .Primary port :: .info (.portInUseNext port) ::
            .wait (RETRY_DELAY * 2 ^ retryCount) :: rest.events,
          rest.outcome⟩
  | .err =>
      let fb := startHttpFallback env
      ⟨.attempt .Primary port :: .logError .serverError ::
          .info .attemptFallback :: fb.events,
        fb.outcome⟩
termination_by MAX_PORT + 1 - port
decreasing_by omega

/-- The process entry (`src/server.js` lines 163-164): log the startup
line and call `startServer()` with its default arguments
(`DEFAULT_PORT`, `0`). -/
def serverMain (env : Env) : Run :=
  let r := startServer env DEFAULT_PORT 0
  ⟨.info .starting :: r.events, r.outcome⟩

/-! ## Concrete port environments used as test inputs -/

/-- The environment in which every port is occupied (`EADDRINUSE`
everywhere). -/
def envAll : Env := fun _ => BindRes.inUse

/-- The environment in which ports 3000 and 3001 are occupied and
every other port is free. -/
def envW : Env := fun q => if q ≤ 3001 then BindRes.inUse else BindRes.ok

/-- The environment in which every bind attempt fails with an error
other than a port conflict. -/
def envErr : Env := fun _ => BindRes.err

/-! ## Error-listener accumulation in the fallback retry path

`startHttpServerWithFallback` (`src/server.js` lines 143-160) is
called recursively with the *same* `server` object, and every call
executes `server.on('error', ...)`, adding a new listener without
removing the ones installed by earlier calls.  Node's `EventEmitter`
delivers each `error` event to *all* registered listeners in
registration order, so the k-th bind failure is handled by k
closures, each holding its own captured `port`. -/

/-- The bind attempts (`server.listen` calls) issued when one
`EADDRINUSE` error event is delivered to the accumulated listeners,
given the `port` value each listener captured: a listener with
`p < MAX_PORT` calls `startHttpServerWithFallback(server, p + 1)`,
issuing a bind attempt on `p + 1` (a listener with `p ≥ MAX_PORT`
would instead call `process.exit(1)`; no such listener arises in the
scenario considered below). -/
def errorDispatch (listeners : List Nat) : List Nat :=
  listeners.filterMap fun p => if p < MAX_PORT then some (p + 1) else none

/-- The bind attempts issued by the fallback path through the handling
of its second `error` event when ports 3000 and 3001 are occupied:
the initial `listen(3000)`, then the dispatch of the first error to
the one listener (captured port 3000), then the dispatch of the
second error to the two accumulated listeners (captured ports 3000
and 3001). -/
def fallbackListenCalls2 : List Nat :=
  3000 :: errorDispatch [3000] ++ errorDispatch [3000, 3001]

/-! ## Step equations for the controller functions -/

lemma fallback_ok {env : Env} {port : Nat} (h : env port = BindRes.ok) :
    startHttpServerWithFallback env port =
      ⟨[.attempt .Fallback port, .info (.fallbackRunning port), .info .endpoints],
        .boundFallback port⟩ := by
  rw [startHttpServerWithFallback, h]

lemma fallback_conflict_step {env : Env} {port : Nat}
    (h : env port = BindRes.inUse) (hlt : port < MAX_PORT) :
    startHttpServerWithFallback env port =
      ⟨.attempt .Fallback port :: .info (.tryingPort port) ::
          (startHttpServerWithFallback env (port + 1)).events,
        (startHttpServerWithFallback env (port + 1)).outcome⟩ := by
  rw [startHttpServerWithFallback, h]
  simp [hlt]

lemma fallback_conflict_stop {env : Env} {port : Nat}
    (h : env port = BindRes.inUse) (hge : ¬ port < MAX_PORT) :
    startHttpServerWithFallback env port =
      ⟨[.attempt .Fallback port, .logError .fatal], .exitOne⟩ := by
  rw [startHttpServerWithFallback, h]
  simp [hge]

lemma fallback_err {env : Env} {port : Nat} (h : env port = BindRes.err) :
    startHttpServerWithFallback env port =
      ⟨[.attempt .Fallback port, .logError .fatal], .exitOne⟩ := by
  rw [startHttpServerWithFallback, h]

lemma startServer_ok {env : Env} {port r : Nat} (h : env port = BindRes.ok) :
    startServer env port r =
      ⟨[.attempt .Primary port, .info (.expressRunning port), .info .endpoints],
        .boundPrimary port⟩ := by
  rw [startServer, h]

lemma startServer_conflict_step {env : Env} {port r : Nat}
    (h : env port = BindRes.inUse) (hlt : port < MAX_PORT) :
    startServer env port r =
      ⟨.attempt .Primary port :: .info (.portInUseNext port) ::
          .wait (RETRY_DELAY * 2 ^ r) :: (startServer env (port + 1) (r + 1)).events,
        (startServer env (port + 1) (r + 1)).outcome⟩ := by
  rw [startServer, h]
  simp [Nat.not_le_of_lt hlt]

lemma startServer_conflict_exhaust {env : Env} {port r : Nat}
    (h : env port = BindRes.inUse) (hge : MAX_PORT ≤ port) :
    startServer env port r =
      ⟨.attempt .Primary port :: .info (.portInUseNext port) ::
          .logError .allPortsInUse :: .info .attemptFallback :: .info .fallbackInit ::
          (startHttpServerWithFallback env DEFAULT_PORT).events,
        (startHttpServerWithFallback env DEFAULT_PORT).outcome⟩ := by
  rw [startServer, h]
  simp [hge, startHttpFallback]

lemma startServer_err {env : Env} {port r : Nat} (h : env port = BindRes.err) :
    startServer env port r =
      ⟨.attempt .Primary port :: .logError .serverError ::
          .info .attemptFallback :: .info .fallbackInit ::
          (startHttpServerWithFallback env DEFAULT_PORT).events,
        (startHttpServerWithFallback env DEFAULT_PORT).outcome⟩ := by
  rw [startServer, h]
  simp [startHttpFallback]

/-! ## Trace-structure lemmas -/

/-- Every fallback run begins with the bind attempt on its start
port. -/
lemma fallback_head (env : Env) (port : Nat) :
    (startHttpServerWithFallback env port).events.head? =
      some (Event.attempt Strategy.Fallback port) := by
  cases h : env port
  · rw [fallback_ok h]; rfl
  · by_cases hlt : port < MAX_PORT
    · rw [fallback_conflict_step h hlt]; rfl
    · rw [fallback_conflict_stop h hlt]; rfl
  · rw [fallback_err h]; rfl

lemma fallback_events_ne_nil (env : Env) (port : Nat) :
    (startHttpServerWithFallback env port).events ≠ [] := by
  intro hnil
  have h := fallback_head env port
  rw [hnil] at h
  exact Option.noConfusion h

/-- The fallback sweep performs no backoff: a fallback run contains no
wait events. -/
lemma fallback_delays_nil :
    ∀ (n : Nat) (env : Env) (port : Nat), MAX_PORT - port ≤ n →
      (startHttpServerWithFallback env port).delays = [] := by
  intro n
  induction n with
  | zero =>
    intro env port hn
    cases h : env port
    · rw [fallback_ok h]; rfl
    · have hge : ¬ port < MAX_PORT := by omega
      rw [fallback_conflict_stop h hge]; rfl
    · rw [fallback_err h]; rfl
  | succ n ih =>
    intro env port hn
    cases h : env port
    · rw [fallback_ok h]; rfl
    · by_cases hlt : port < MAX_PORT
      · have ihp := ih env (port + 1) (by omega)
        rw [fallback_conflict_step h hlt]
        simpa [Run.delays] using ihp
      · rw [fallback_conflict_stop h hlt]; rfl
    · rw [fallback_err h]; rfl

/-- Exhausting the Primary sweep: when every port from the current one
up to `MAX_PORT` is occupied, the run logs range exhaustion and
continues as the fallback path started at `DEFAULT_PORT`, with only
log lines (no wait) between the final Primary attempt and the fallback
events. -/
lemma primary_exhaust :
    ∀ (n : Nat) (env : Env) (port r : Nat), MAX_PORT - port ≤ n → port ≤ MAX_PORT →
      (∀ q, port ≤ q → q ≤ MAX_PORT → env q = BindRes.inUse) →
      ∃ pre, (startServer env port r).events =
          pre ++ Event.attempt .Primary MAX_PORT :: Event.info (.portInUseNext MAX_PORT) ::
            Event.logError .allPortsInUse :: Event.info .attemptFallback ::
            Event.info .fallbackInit ::
            (startHttpServerWithFallback env DEFAULT_PORT).events ∧
        (startServer env port r).outcome =
          (startHttpServerWithFallback env DEFAULT_PORT).outcome := by
  intro n
  induction n with
  | zero =>
    intro env port r hn hle hocc
    have hp : port = MAX_PORT := by omega
    subst hp
    have h := hocc MAX_PORT le_rfl le_rfl
    rw [startServer_conflict_exhaust h le_rfl]
    exact ⟨[], rfl, rfl⟩
  | succ n ih =>
    intro env port r hn hle hocc
    have h := hocc port le_rfl hle
    by_cases hlt : port < MAX_PORT
    · obtain ⟨pre, hpre, hout⟩ :=
        ih env (port + 1) (r + 1) (by omega) (by omega)
          (fun q h1 h2 => hocc q (by omega) h2)
      rw [startServer_conflict_step h hlt]
      refine ⟨Event.attempt .Primary port :: Event.info (.portInUseNext port) ::
          Event.wait (RETRY_DELAY * 2 ^ r) :: pre, ?_, hout⟩
      simp [hpre]
    · have hp : port = MAX_PORT := by omega
      subst hp
      rw [startServer_conflict_exhaust h le_rfl]
      exact ⟨[], rfl, rfl⟩

/-- Exhausting the Fallback sweep: when every port from the current
one up to `MAX_PORT` is occupied, the fallback run ends in
`process.exit(1)`, its final event being the fatal `console.error`
line. -/
lemma fallback_exhaust :
    ∀ (n : Nat) (env : Env) (port : Nat), MAX_PORT - port ≤ n → port ≤ MAX_PORT →
      (∀ q, port ≤ q → q ≤ MAX_PORT → env q = BindRes.inUse) →
      (startHttpServerWithFallback env port).outcome = Outcome.exitOne ∧
      (startHttpServerWithFallback env port).events.getLast? =
        some (Event.logError Msg.fatal) := by
  intro n
  induction n with
  | zero =>
    intro env port hn hle hocc
    have h := hocc port le_rfl hle
    have hge : ¬ port < MAX_PORT := by omega
    rw [fallback_conflict_stop h hge]
    exact ⟨rfl, rfl⟩
  | succ n ih =>
    intro env port hn hle hocc
    have h := hocc port le_rfl hle
    by_cases hlt : port < MAX_PORT
    · obtain ⟨hout, hlast⟩ :=
        ih env (port + 1) (by omega) (by omega) (fun q h1 h2 => hocc q (by omega) h2)
      rw [fallback_conflict_step h hlt]
      constructor
      · exact hout
      · show (List.append [Event.attempt .Fallback port, Event.info (.tryingPort port)]
            (startHttpServerWithFallback env (port + 1)).events).getLast? = _
        rw [show (List.append [Event.attempt .Fallback port, Event.info (.tryingPort port)]
            (startHttpServerWithFallback env (port + 1)).events) =
            [Event.attempt .Fallback port, Event.info (.tryingPort port)] ++
              (startHttpServerWithFallback env (port + 1)).events from rfl]
        rw [List.getLast?_append_of_ne_nil _ (fallback_events_ne_nil env (port + 1))]
        exact hlast
    · rw [fallback_conflict_stop h hlt]
      exact ⟨rfl, rfl⟩

/-! ### Pointwise computation rules for `Run.delays` and `Run.attempts` -/

lemma delays_cons_attempt (s : Strategy) (p : Nat) (l : List Event) (o : Outcome) :
    Run.delays ⟨Event.attempt s p :: l, o⟩ = Run.delays ⟨l, o⟩ := rfl

lemma delays_cons_wait (ms : Nat) (l : List Event) (o : Outcome) :
    Run.delays ⟨Event.wait ms :: l, o⟩ = ms :: Run.delays ⟨l, o⟩ := rfl

lemma delays_cons_info (m : Msg) (l : List Event) (o : Outcome) :
    Run.delays ⟨Event.info m :: l, o⟩ = Run.delays ⟨l, o⟩ := rfl

lemma delays_cons_logError (m : Msg) (l : List Event) (o : Outcome) :
    Run.delays ⟨Event.logError m :: l, o⟩ = Run.delays ⟨l, o⟩ := rfl

lemma delays_nil (o : Outcome) : Run.delays ⟨[], o⟩ = [] := rfl

lemma delays_eta (r : Run) : Run.delays ⟨r.events, r.outcome⟩ = r.delays := rfl

lemma attempts_cons_attempt (s : Strategy) (p : Nat) (l : List Event) (o : Outcome) :
    Run.attempts ⟨Event.attempt s p :: l, o⟩ = (s, p) :: Run.attempts ⟨l, o⟩ := rfl

lemma attempts_cons_wait (ms : Nat) (l : List Event) (o : Outcome) :
    Run.attempts ⟨Event.wait ms :: l, o⟩ = Run.attempts ⟨l, o⟩ := rfl

lemma attempts_cons_info (m : Msg) (l : List Event) (o : Outcome) :
    Run.attempts ⟨Event.info m :: l, o⟩ = Run.attempts ⟨l, o⟩ := rfl

lemma attempts_cons_logError (m : Msg) (l : List Event) (o : Outcome) :
    Run.attempts ⟨Event.logError m :: l, o⟩ = Run.attempts ⟨l, o⟩ := rfl

lemma attempts_nil (o : Outcome) : Run.attempts ⟨[], o⟩ = [] := rfl

lemma attempts_eta (r : Run) : Run.attempts ⟨r.events, r.outcome⟩ = r.attempts := rfl

/-- The Primary sweep through an occupied prefix of the port range:
with ports `port..p-1` occupied and `p` free, the run binds `p` and
waits `RETRY_DELAY * 2 ^ (r + i)` before the `i`-th retry. -/
lemma primary_sweep :
    ∀ (n : Nat) (env : Env) (port r p : Nat), p - port = n → port ≤ p → p ≤ MAX_PORT →
      (∀ q, port ≤ q → q < p → env q = BindRes.inUse) → env p = BindRes.ok →
      (startServer env port r).outcome = Outcome.boundPrimary p ∧
      (startServer env port r).delays =
        (List.range n).map (fun i => RETRY_DELAY * 2 ^ (r + i)) := by
  intro n
  induction n with
  | zero =>
    intro env port r p hn hle hmax hocc hfree
    have hp : port = p := by omega
    subst hp
    rw [startServer_ok hfree]
    exact ⟨rfl, rfl⟩
  | succ n ih =>
    intro env port r p hn hle hmax hocc hfree
    have hlt : port < p := by omega
    have h := hocc port le_rfl hlt
    have hltM : port < MAX_PORT := by omega
    obtain ⟨hout, hdel⟩ :=
      ih env (port + 1) (r + 1) p (by omega) (by omega) hmax
        (fun q h1 h2 => hocc q (by omega) h2) hfree
    rw [startServer_conflict_step h hltM]
    refine ⟨hout, ?_⟩
    rw [delays_cons_attempt, delays_cons_info, delays_cons_wait, delays_eta, hdel]
    rw [List.range_succ_eq_map, List.map_cons, List.map_map]
    refine congrArg₂ _ (by rw [Nat.add_zero]) (List.map_congr_left ?_)
    intro i _
    show RETRY_DELAY * 2 ^ (r + 1 + i) = RETRY_DELAY * 2 ^ (r + (i + 1))
    have harith : r + 1 + i = r + (i + 1) := by omega
    rw [harith]

/-- Every bind attempt of a fallback run started within the port range
stays within it, and all its attempts carry the Fallback strategy. -/
lemma fallback_attempts_shape :
    ∀ (n : Nat) (env : Env) (port : Nat), MAX_PORT - port ≤ n → port ≤ MAX_PORT →
      (∀ sp ∈ (startHttpServerWithFallback env port).attempts,
        port ≤ sp.2 ∧ sp.2 ≤ MAX_PORT ∧ sp.1 = Strategy.Fallback) := by
  intro n
  induction n with
  | zero =>
    intro env port hn hle sp hsp
    cases h : env port
    · rw [fallback_ok h, attempts_cons_attempt, attempts_cons_info,
        attempts_cons_info, attempts_nil] at hsp
      rcases List.mem_cons.mp hsp with hsp | hsp
      · exact hsp ▸ ⟨le_rfl, hle, rfl⟩
      · exact absurd hsp (List.not_mem_nil sp)
    · have hge : ¬ port < MAX_PORT := by omega
      rw [fallback_conflict_stop h hge, attempts_cons_attempt,
        attempts_cons_logError, attempts_nil] at hsp
      rcases List.mem_cons.mp hsp with hsp | hsp
      · exact hsp ▸ ⟨le_rfl, hle, rfl⟩
      · exact absurd hsp (List.not_mem_nil sp)
    · rw [fallback_err h, attempts_cons_attempt,
        attempts_cons_logError, attempts_nil] at hsp
      rcases List.mem_cons.mp hsp with hsp | hsp
      · exact hsp ▸ ⟨le_rfl, hle, rfl⟩
      · exact absurd hsp (List.not_mem_nil sp)
  | succ n ih =>
    intro env port hn hle sp hsp
    cases h : env port
    · rw [fallback_ok h, attempts_cons_attempt, attempts_cons_info,
        attempts_cons_info, attempts_nil] at hsp
      rcases List.mem_cons.mp hsp with hsp | hsp
      · exact hsp ▸ ⟨le_rfl, hle, rfl⟩
      · exact absurd hsp (List.not_mem_nil sp)
    · by_cases hlt : port < MAX_PORT
      · rw [fallback_conflict_step h hlt, attempts_cons_attempt,
          attempts_cons_info, attempts_eta] at hsp
        rcases List.mem_cons.mp hsp with hsp | hsp
        · exact hsp ▸ ⟨le_rfl, hle, rfl⟩
        · obtain ⟨h1, h2, h3⟩ := ih env (port + 1) (by omega) (by omega) sp hsp
          exact ⟨by omega, h2, h3⟩
      · rw [fallback_conflict_stop h hlt, attempts_cons_attempt,
          attempts_cons_logError, attempts_nil] at hsp
        rcases List.mem_cons.mp hsp with hsp | hsp
        · exact hsp ▸ ⟨le_rfl, hle, rfl⟩
        · exact absurd hsp (List.not_mem_nil sp)
    · rw [fallback_err h, attempts_cons_attempt,
        attempts_cons_logError, attempts_nil] at hsp
      rcases List.mem_cons.mp hsp with hsp | hsp
      · exact hsp ▸ ⟨le_rfl, hle, rfl⟩
      · exact absurd hsp (List.not_mem_nil sp)

/-- The attempts of the fallback path started at `DEFAULT_PORT` stay
in the port range, and their strategies are all Fallback. -/
lemma fallback_attempts_all (env : Env) :
    (∀ sp ∈ (startHttpServerWithFallback env DEFAULT_PORT).attempts,
      DEFAULT_PORT ≤ sp.2 ∧ sp.2 ≤ MAX_PORT) ∧
    (startHttpServerWithFallback env DEFAULT_PORT).attempts.map Prod.fst =
      List.replicate (startHttpServerWithFallback env DEFAULT_PORT).attempts.length
        Strategy.Fallback := by
  have hfb := fallback_attempts_shape (MAX_PORT - DEFAULT_PORT) env DEFAULT_PORT
    le_rfl (by norm_num [DEFAULT_PORT, MAX_PORT])
  constructor
  · intro sp hsp
    exact ⟨(hfb sp hsp).1, (hfb sp hsp).2.1⟩
  · have hmem : ∀ s ∈ (startHttpServerWithFallback env DEFAULT_PORT).attempts.map Prod.fst,
        s = Strategy.Fallback := by
      intro s hs
      obtain ⟨sp, hsp, hfst⟩ := List.mem_map.mp hs
      rw [← hfst]
      exact (hfb sp hsp).2.2
    rw [List.eq_replicate_of_mem hmem]
    simp

/-- The attempts of a run that enters the fallback path after one
Primary attempt at `port`: the Primary attempt followed by the
fallback attempts, i.e. one Primary strategy then all Fallback. -/
lemma attempts_primary_then_fallback {env : Env} {port : Nat} {l : List Event} {o : Outcome}
    (hdef : DEFAULT_PORT ≤ port) (hle : port ≤ MAX_PORT)
    (hl : Run.attempts ⟨l, o⟩ = (startHttpServerWithFallback env DEFAULT_PORT).attempts) :
    (∀ sp ∈ Run.attempts ⟨Event.attempt Strategy.Primary port :: l, o⟩,
      DEFAULT_PORT ≤ sp.2 ∧ sp.2 ≤ MAX_PORT) ∧
    ∃ a b, (Run.attempts ⟨Event.attempt Strategy.Primary port :: l, o⟩).map Prod.fst =
      List.replicate a Strategy.Primary ++ List.replicate b Strategy.Fallback := by
  obtain ⟨hfb1, hfb2⟩ := fallback_attempts_all env
  rw [attempts_cons_attempt, hl]
  constructor
  · intro sp hsp
    rcases List.mem_cons.mp hsp with hsp | hsp
    · exact hsp ▸ ⟨hdef, hle⟩
    · exact hfb1 sp hsp
  · refine ⟨1, (startHttpServerWithFallback env DEFAULT_PORT).attempts.length, ?_⟩
    rw [List.map_cons, hfb2]
    rfl

/-- Every bind attempt of a Primary run started within the port range
stays within `DEFAULT_PORT..MAX_PORT`, and the strategies of its
attempts are some Primary attempts followed by some Fallback
attempts. -/
lemma primary_attempts_shape :
    ∀ (n : Nat) (env : Env) (port r : Nat), MAX_PORT - port ≤ n →
      DEFAULT_PORT ≤ port → port ≤ MAX_PORT →
      (∀ sp ∈ (startServer env port r).attempts,
        DEFAULT_PORT ≤ sp.2 ∧ sp.2 ≤ MAX_PORT) ∧
      ∃ a b, (startServer env port r).attempts.map Prod.fst =
        List.replicate a Strategy.Primary ++ List.replicate b Strategy.Fallback := by
  intro n
  induction n with
  | zero =>
    intro env port r hn hdef hle
    have hp : port = MAX_PORT := by omega
    cases h : env port
    · rw [startServer_ok h]
      refine ⟨?_, 1, 0, rfl⟩
      intro sp hsp
      rw [attempts_cons_attempt, attempts_cons_info, attempts_cons_info,
        attempts_nil] at hsp
      rcases List.mem_cons.mp hsp with hsp | hsp
      · exact hsp ▸ ⟨hdef, hle⟩
      · exact absurd hsp (List.not_mem_nil sp)
    · rw [startServer_conflict_exhaust h (by omega)]
      exact attempts_primary_then_fallback hdef hle
        (by rw [attempts_cons_info, attempts_cons_logError, attempts_cons_info,
          attempts_cons_info, attempts_eta])
    · rw [startServer_err h]
      exact attempts_primary_then_fallback hdef hle
        (by rw [attempts_cons_logError, attempts_cons_info, attempts_cons_info,
          attempts_eta])
  | succ n ih =>
    intro env port r hn hdef hle
    cases h : env port
    · rw [startServer_ok h]
      refine ⟨?_, 1, 0, rfl⟩
      intro sp hsp
      rw [attempts_cons_attempt, attempts_cons_info, attempts_cons_info,
        attempts_nil] at hsp
      rcases List.mem_cons.mp hsp with hsp | hsp
      · exact hsp ▸ ⟨hdef, hle⟩
      · exact absurd hsp (List.not_mem_nil sp)
    · by_cases hlt : port < MAX_PORT
      · obtain ⟨ih1, a, b, ih2⟩ :=
          ih env (port + 1) (r + 1) (by omega) (by omega) (by omega)
        rw [startServer_conflict_step h hlt]
        constructor
        · intro sp hsp
          rw [attempts_cons_attempt, attempts_cons_info, attempts_cons_wait,
            attempts_eta] at hsp
          rcases List.mem_cons.mp hsp with hsp | hsp
          · exact hsp ▸ ⟨hdef, hle⟩
          · exact ih1 sp hsp
        · refine ⟨a + 1, b, ?_⟩
          rw [attempts_cons_attempt, attempts_cons_info, attempts_cons_wait,
            attempts_eta, List.map_cons, ih2, List.replicate_succ, List.cons_append]
      · rw [startServer_conflict_exhaust h (by omega)]
        exact attempts_primary_then_fallback hdef hle
          (by rw [attempts_cons_info, attempts_cons_logError, attempts_cons_info,
            attempts_cons_info, attempts_eta])
    · rw [startServer_err h]
      exact attempts_primary_then_fallback hdef hle
        (by rw [attempts_cons_logError, attempts_cons_info, attempts_cons_info,
          attempts_eta])

lemma serverMain_events (env : Env) :
    (serverMain env).events =
      Event.info Msg.starting :: (startServer env DEFAULT_PORT 0).events := rfl

lemma serverMain_outcome (env : Env) :
    (serverMain env).outcome = (startServer env DEFAULT_PORT 0).outcome := rfl

lemma serverMain_delays (env : Env) :
    (serverMain env).delays = (startServer env DEFAULT_PORT 0).delays := rfl

lemma serverMain_attempts (env : Env) :
    (serverMain env).attempts = (startServer env DEFAULT_PORT 0).attempts := rfl

/-- Mapping a responder over a request stream answers the request at
any given position from that request alone. -/
lemma getElem_map_append (f : Request → Response) (pre post : List Request) (r : Request) :
    ((pre ++ r :: post).map f)[pre.length]? = some (f r) := by
  induction pre with
  | nil => simp
  | cons a t ih => simpa using ih

/-! ## Claim theorems -/

/-- Claim C1 (code bug evidence).  Response parity between the Primary
(Express) and Fallback (bare HTTP) strategies fails, although the
source's own comments promise "identical responses": on `GET /nope`
both answer 404 but the Primary body is Express's default HTML error
document, not `Not Found`; and on `GET /?x=1` the Primary strategy
answers `200 Hello World!` (Express matches the parsed path `/`) while
the Fallback answers `404 Not Found` (literal `req.url`
comparison). -/
theorem express_fallback_parity_fails :
    (expressRespond ⟨"GET", "/nope"⟩).status = 404 ∧
    (fallbackRespond ⟨"GET", "/nope"⟩).status = 404 ∧
    (fallbackRespond ⟨"GET", "/nope"⟩).body = "Not Found" ∧
    (expressRespond ⟨"GET", "/nope"⟩).body ≠ "Not Found" ∧
    expressRespond ⟨"GET", "/nope"⟩ ≠ fallbackRespond ⟨"GET", "/nope"⟩ ∧
    expressRespond ⟨"GET", "/?x=1"⟩ =
      { status := 200, contentType := htmlContentType, body := "Hello World!" } ∧
    fallbackRespond ⟨"GET", "/?x=1"⟩ =
      { status := 404, contentType := "text/plain", body := "Not Found" } := by
  refine ⟨rfl, rfl, rfl, by decide, by decide, ?_, rfl⟩
  rfl

/-- Claim C6.  In any request stream, a `GET /` request is answered
`200` with body `Hello World!` and a `GET /good-evening` request is
answered `200` with body `Good evening`, at its own position and
regardless of the surrounding requests, under either strategy. -/
theorem fixed_routes_stateless (st : Strategy) (pre post : List Request) :
    (serveAll st (pre ++ ⟨"GET", "/"⟩ :: post))[pre.length]? =
      some (respond st ⟨"GET", "/"⟩) ∧
    (respond st ⟨"GET", "/"⟩).status = 200 ∧
    (respond st ⟨"GET", "/"⟩).body = "Hello World!" ∧
    (serveAll st (pre ++ ⟨"GET", "/good-evening"⟩ :: post))[pre.length]? =
      some (respond st ⟨"GET", "/good-evening"⟩) ∧
    (respond st ⟨"GET", "/good-evening"⟩).status = 200 ∧
    (respond st ⟨"GET", "/good-evening"⟩).body = "Good evening" := by
  refine ⟨getElem_map_append _ _ _ _, ?_, ?_, getElem_map_append _ _ _ _, ?_, ?_⟩ <;>
    cases st <;> rfl

/-- Claim C7 (counterexample).  Not every response is plain text: the
Primary (Express) strategy serves `GET /` with content type
`text/html; charset=utf-8` (the Express `res.send` default, which the
repository's README also documents), not `text/plain`. -/
theorem express_content_type_not_plain :
    (expressRespond ⟨"GET", "/"⟩).contentType = "text/html; charset=utf-8" ∧
    (expressRespond ⟨"GET", "/"⟩).contentType ≠ "text/plain" ∧
    (fallbackRespond ⟨"GET", "/"⟩).contentType = "text/plain" := by
  refine ⟨rfl, by decide, rfl⟩

/-- Claim C7 (amended).  Every Fallback-strategy response carries
content type `text/plain`; every Primary-strategy response carries
Express's default `text/html; charset=utf-8` instead. -/
theorem content_types_by_strategy (r : Request) :
    (fallbackRespond r).contentType = "text/plain" ∧
    (expressRespond r).contentType = htmlContentType := by
  refine ⟨?_, ?_⟩
  · unfold fallbackRespond
    split
    · rfl
    · split <;> rfl
  · unfold expressRespond
    split
    · rfl
    · split <;> rfl

/-- Claim C10.  The Fallback responder matches the full request URL
literally: any GET request whose URL differs by even one character
from `/` and from `/good-evening` gets `404 Not Found`. -/
theorem fallback_exact_url_match (url : String)
    (h1 : url ≠ "/") (h2 : url ≠ "/good-evening") :
    fallbackRespond ⟨"GET", url⟩ =
      { status := 404, contentType := "text/plain", body := "Not Found" } := by
  have e1 : (url == "/") = false := beq_eq_false_iff_ne.mpr h1
  have e2 : (url == "/good-evening") = false := beq_eq_false_iff_ne.mpr h2
  simp [fallbackRespond, e1, e2]

/-- Witness for claim C10 at the concrete URL string with a query
component. -/
theorem fallback_exact_url_match_witness :
    fallbackRespond ⟨"GET", "/?x=1"⟩ =
      { status := 404, contentType := "text/plain", body := "Not Found" } :=
  fallback_exact_url_match "/?x=1" (by decide) (by decide)

/-- Claim C2.  If ports `3000..p-1` are occupied and `p` is free (for
`p` in the range), the Primary strategy binds exactly `p` after
exactly `p - 3000` backoff delays, the `i`-th being `1000 * 2 ^ i`
milliseconds. -/
theorem primary_backoff_schedule (env : Env) (p : Nat)
    (h1 : 3000 ≤ p) (h2 : p ≤ 3010)
    (hocc : ∀ q, 3000 ≤ q → q < p → env q = BindRes.inUse)
    (hfree : env p = BindRes.ok) :
    (serverMain env).outcome = Outcome.boundPrimary p ∧
    (serverMain env).delays = (List.range (p - 3000)).map (fun i => 1000 * 2 ^ i) := by
  obtain ⟨hout, hdel⟩ :=
    primary_sweep (p - DEFAULT_PORT) env DEFAULT_PORT 0 p rfl h1 h2 hocc hfree
  constructor
  · rw [serverMain_outcome]
    exact hout
  · rw [serverMain_delays, hdel]
    refine List.map_congr_left ?_
    intro i _
    show RETRY_DELAY * 2 ^ (0 + i) = 1000 * 2 ^ i
    rw [Nat.zero_add]
    rfl

/-- Witness for claim C2: with ports 3000 and 3001 occupied and 3002
free, the run binds 3002 after delays of 1000 ms and 2000 ms. -/
theorem primary_backoff_schedule_witness :
    (serverMain envW).outcome = Outcome.boundPrimary 3002 ∧
    (serverMain envW).delays = (List.range (3002 - 3000)).map (fun i => 1000 * 2 ^ i) :=
  primary_backoff_schedule envW 3002 (by norm_num) (by norm_num)
    (fun q hq1 hq2 => by
      show envW q = BindRes.inUse
      have hq : q ≤ 3001 := by omega
      simp [envW, hq])
    (by show envW 3002 = BindRes.ok; simp [envW])

/-- Claim C3.  When every port `3000..3010` is occupied, the run
exhausts the Primary sweep at 3010 and switches to the Fallback
strategy restarting at 3000, with only console lines — no wait —
between the final Primary attempt and the first Fallback attempt; and
a Fallback sweep never waits between attempts (for any environment
and start port). -/
theorem fallback_switch_no_delay :
    (∀ env : Env, (∀ q, 3000 ≤ q → q ≤ 3010 → env q = BindRes.inUse) →
      ∃ pre, (serverMain env).events =
          pre ++ Event.attempt .Primary 3010 :: Event.info (Msg.portInUseNext 3010) ::
            Event.logError Msg.allPortsInUse :: Event.info Msg.attemptFallback ::
            Event.info Msg.fallbackInit ::
            (startHttpServerWithFallback env 3000).events ∧
        (startHttpServerWithFallback env 3000).events.head? =
          some (Event.attempt .Fallback 3000)) ∧
    ∀ (env : Env) (port : Nat), (startHttpServerWithFallback env port).delays = [] := by
  constructor
  · intro env hocc
    obtain ⟨pre, hpre, _⟩ :=
      primary_exhaust (MAX_PORT - DEFAULT_PORT) env DEFAULT_PORT 0 le_rfl
        (by norm_num [DEFAULT_PORT, MAX_PORT]) hocc
    refine ⟨Event.info Msg.starting :: pre, ?_, fallback_head env 3000⟩
    rw [serverMain_events, hpre]
    rfl
  · intro env port
    exact fallback_delays_nil (MAX_PORT - port) env port le_rfl

/-- Witness for claim C3 at the all-occupied environment. -/
theorem fallback_switch_no_delay_witness :
    ∃ pre, (serverMain envAll).events =
        pre ++ Event.attempt .Primary 3010 :: Event.info (Msg.portInUseNext 3010) ::
          Event.logError Msg.allPortsInUse :: Event.info Msg.attemptFallback ::
          Event.info Msg.fallbackInit ::
          (startHttpServerWithFallback envAll 3000).events ∧
      (startHttpServerWithFallback envAll 3000).events.head? =
        some (Event.attempt .Fallback 3000) :=
  fallback_switch_no_delay.1 envAll (fun _ _ _ => rfl)

/-- Claim C4 (counterexample).  With every port occupied the process
does exit with status 1, but the diagnostic accompanying the exit —
the run's final event — is the fixed fatal line, whose text contains
no digit at all and so does not identify the exhausted port range
3000..3010. -/
theorem fatal_message_lacks_range :
    (serverMain envAll).outcome = Outcome.exitOne ∧
    (serverMain envAll).events.getLast? = some (Event.logError Msg.fatal) ∧
    Msg.fatal.text = "Fatal error: Unable to start server on any available port" ∧
    (Msg.fatal.text.data.all fun c => !c.isDigit) = true := by
  refine ⟨?_, ?_, by decide, by decide⟩
  · simp [serverMain, startServer, startHttpFallback, startHttpServerWithFallback,
      envAll, MAX_PORT, DEFAULT_PORT, RETRY_DELAY]
  · simp [serverMain, startServer, startHttpFallback, startHttpServerWithFallback,
      envAll, MAX_PORT, DEFAULT_PORT, RETRY_DELAY]

/-- Claim C4 (amended).  When every port `3000..3010` is occupied
under both strategies, the process exits with status 1 after the fatal
`console.error` line; the exhausted range is identified by the earlier
Primary-exhaustion diagnostic (`All ports from 3000 to 3010 are in
use.`), which precedes the fatal message in the same run, not by the
fatal message itself. -/
theorem exhaustion_exit_and_messages (env : Env)
    (h : ∀ q, 3000 ≤ q → q ≤ 3010 → env q = BindRes.inUse) :
    (serverMain env).outcome = Outcome.exitOne ∧
    (serverMain env).events.getLast? = some (Event.logError Msg.fatal) ∧
    Event.logError Msg.allPortsInUse ∈ (serverMain env).events ∧
    Msg.allPortsInUse.text = "All ports from 3000 to 3010 are in use." ∧
    Msg.fatal.text = "Fatal error: Unable to start server on any available port" := by
  obtain ⟨pre, hpre, hout⟩ :=
    primary_exhaust (MAX_PORT - DEFAULT_PORT) env DEFAULT_PORT 0 le_rfl
      (by norm_num [DEFAULT_PORT, MAX_PORT]) h
  obtain ⟨hfbout, hfblast⟩ :=
    fallback_exhaust (MAX_PORT - DEFAULT_PORT) env DEFAULT_PORT le_rfl
      (by norm_num [DEFAULT_PORT, MAX_PORT]) h
  refine ⟨?_, ?_, ?_, by decide, by decide⟩
  · rw [serverMain_outcome, hout, hfbout]
  · rw [serverMain_events, hpre]
    rw [show Event.info Msg.starting ::
        (pre ++ Event.attempt .Primary MAX_PORT :: Event.info (Msg.portInUseNext MAX_PORT) ::
          Event.logError Msg.allPortsInUse :: Event.info Msg.attemptFallback ::
          Event.info Msg.fallbackInit ::
          (startHttpServerWithFallback env DEFAULT_PORT).events) =
        (Event.info Msg.starting :: pre ++
          [Event.attempt .Primary MAX_PORT, Event.info (Msg.portInUseNext MAX_PORT),
            Event.logError Msg.allPortsInUse, Event.info Msg.attemptFallback,
            Event.info Msg.fallbackInit]) ++
          (startHttpServerWithFallback env DEFAULT_PORT).events from by simp]
    rw [List.getLast?_append_of_ne_nil _ (fallback_events_ne_nil env DEFAULT_PORT)]
    exact hfblast
  · rw [serverMain_events, hpre]
    simp

/-- Witness for the amended claim C4 at the all-occupied
environment. -/
theorem exhaustion_exit_and_messages_witness :
    (serverMain envAll).outcome = Outcome.exitOne ∧
    (serverMain envAll).events.getLast? = some (Event.logError Msg.fatal) ∧
    Event.logError Msg.allPortsInUse ∈ (serverMain envAll).events ∧
    Msg.allPortsInUse.text = "All ports from 3000 to 3010 are in use." ∧
    Msg.fatal.text = "Fatal error: Unable to start server on any available port" :=
  exhaustion_exit_and_messages envAll (fun _ _ _ => rfl)

/-- Claim C5.  A bind failure that is not a port conflict makes the
Primary strategy switch immediately to the Fallback strategy at the
preferred port 3000 — the very next bind attempt is Fallback 3000,
with no further Primary sweep and no wait — and under the Fallback
strategy the same failure is fatal: the run ends in `process.exit(1)`
right after the fatal line. -/
theorem other_error_switch_and_fatal :
    (∀ (env : Env) (port r : Nat), env port = BindRes.err →
      startServer env port r =
        ⟨Event.attempt .Primary port :: Event.logError Msg.serverError ::
            Event.info Msg.attemptFallback :: Event.info Msg.fallbackInit ::
            (startHttpServerWithFallback env 3000).events,
          (startHttpServerWithFallback env 3000).outcome⟩) ∧
    ∀ (env : Env) (port : Nat), env port = BindRes.err →
      startHttpServerWithFallback env port =
        ⟨[Event.attempt .Fallback port, Event.logError Msg.fatal], Outcome.exitOne⟩ :=
  ⟨fun _ _ _ h => startServer_err h, fun _ _ h => fallback_err h⟩

/-- Witness for claim C5 at the all-error environment. -/
theorem other_error_switch_and_fatal_witness :
    startServer envErr 3000 0 =
      ⟨Event.attempt .Primary 3000 :: Event.logError Msg.serverError ::
          Event.info Msg.attemptFallback :: Event.info Msg.fallbackInit ::
          (startHttpServerWithFallback envErr 3000).events,
        (startHttpServerWithFallback envErr 3000).outcome⟩ ∧
    startHttpServerWithFallback envErr 3000 =
      ⟨[Event.attempt .Fallback 3000, Event.logError Msg.fatal], Outcome.exitOne⟩ :=
  ⟨other_error_switch_and_fatal.1 envErr 3000 0 rfl,
    other_error_switch_and_fatal.2 envErr 3000 rfl⟩

/-- Claim C8.  In every run from the process entry, every bind attempt
is on a port in `3000..3010`, and the attempted strategies are some
Primary attempts followed by some Fallback attempts — so the strategy
switches Primary to Fallback at most once and never back. -/
theorem acquisition_invariants (env : Env) :
    (∀ sp ∈ (serverMain env).attempts, 3000 ≤ sp.2 ∧ sp.2 ≤ 3010) ∧
    ∃ a b, (serverMain env).attempts.map Prod.fst =
      List.replicate a Strategy.Primary ++ List.replicate b Strategy.Fallback := by
  obtain ⟨h1, h2⟩ :=
    primary_attempts_shape (MAX_PORT - DEFAULT_PORT) env DEFAULT_PORT 0 le_rfl le_rfl
      (by norm_num [DEFAULT_PORT, MAX_PORT])
  rw [serverMain_attempts]
  exact ⟨h1, h2⟩

/-- Witness for claim C8 at the all-occupied environment. -/
theorem acquisition_invariants_witness :
    (∀ sp ∈ (serverMain envAll).attempts, 3000 ≤ sp.2 ∧ sp.2 ≤ 3010) ∧
    ∃ a b, (serverMain envAll).attempts.map Prod.fst =
      List.replicate a Strategy.Primary ++ List.replicate b Strategy.Fallback :=
  acquisition_invariants envAll

/-- Claim C9 (code bug evidence).  Because each fallback retry adds
another `error` listener to the same server, the second `EADDRINUSE`
event is dispatched to the two accumulated listeners (captured ports
3000 and 3001) and issues two bind attempts at once — ports 3001 and
3002 — so the bind attempts are not sequential and port 3001 is
attempted twice across the run. -/
theorem fallback_listener_accumulation :
    errorDispatch [3000, 3001] = [3001, 3002] ∧
    (errorDispatch [3000, 3001]).length = 2 ∧
    fallbackListenCalls2 = [3000, 3001, 3001, 3002] ∧
    ¬ fallbackListenCalls2.Nodup := by
  refine ⟨by decide, by decide, by decide, by decide⟩

end ServerJs
